import Mathlib

/-!
Shallow embedding of the anomaly pipeline of `src/main.py` (`filter_and_roll`,
lines 51-84, together with the shape of the cached table produced by
`get_data`, lines 23-45).

Modelling conventions:

* A dataframe is a `List` of records, one structure per pipeline stage.
* Calendar dates are day numbers (`ℕ`); `doy`, `month`, `year` are the
  derived columns that `get_data` attaches (their calendar derivation is
  outside `filter_and_roll` and irrelevant to the claims, so they are plain
  fields of the row).
* Precipitation and all statistics are exact rationals (`ℚ`); a float `NaN`
  cell is `Option.none`.
* `rolling(f'{window}d', min_periods=int(window/3)).sum()` on a
  date-indexed, per-region-monotonic series: the window of the row at date
  `d` holds exactly the earlier-or-equal rows of the same region whose date
  lies in the half-open interval `(d - window, d]`, and the sum is `NaN`
  when fewer than `⌊window / 3⌋` observations fall in it.  Since pandas
  requires a monotonic index here, the theorems that talk about window
  contents carry a per-region sortedness hypothesis (`regSorted`), which is
  also the data-model invariant "at most one observation per (region, date)".
* `merge(..., left_on=['region', 'date'], right_index=True)` and
  `merge(..., on=['region', 'doy'])` are inner joins that preserve the order
  of the left keys (pandas documented behaviour), embedded as an in-place
  attachment resp. a `filterMap` over the left table.
* pandas `std` is the square root of the sample variance (`ddof = 1`), an
  irrational number in general, so the embedding carries the sample variance
  (`base_var`); `std` is defined iff the variance is, and `std = 0` iff the
  variance is `0`, which is all the claims consume.  Likewise the `z` column
  `(rolling_sum - base_mean) / base_std` has a finite value iff
  `rolling_sum`, `base_mean` are non-`NaN` and `base_std` is non-`NaN` and
  non-zero (`0/0` is `NaN`, `x/0` is `±inf` for `x ≠ 0`): the embedding
  records that finiteness as `zFinite`.
-/

/-- One row of the cached table built by `get_data`: the parsed
`(date, precip)` pair tagged with its region and the derived calendar
columns `doy`, `month`, `year` (src/main.py lines 30-43). -/
structure Row where
  region : String
  date : ℕ
  precip : ℚ
  doy : ℕ
  month : ℕ
  year : ℤ
deriving DecidableEq, Repr

/-- A row after the first merge (line 62-64): the raw row plus the
`rolling_sum` column, `none` standing for float `NaN`. -/
structure RolledRow where
  row : Row
  rolling_sum : Option ℚ
deriving DecidableEq, Repr

/-- A row after the baseline merge (lines 78-79): the rolled row plus the
per-`(region, doy)` baseline columns.  `base_var` is the sample variance
whose square root is the source's `base_std_rolling_sum` column. -/
structure ScoredRow where
  row : Row
  rolling_sum : Option ℚ
  base_mean : Option ℚ
  base_var : Option ℚ
deriving DecidableEq, Repr

/-- One row of the `base_period` table (lines 68-76): the group key
`(region, doy)` with the aggregated mean and (variance form of the)
standard deviation of `rolling_sum` over the baseline years. -/
structure BStat where
  region : String
  doy : ℕ
  mean : Option ℚ
  bvar : Option ℚ
deriving DecidableEq, Repr

/-- Line 52: `df = df.loc[df['region'].isin(regions)]`. -/
def filterRegions (df : List Row) (regions : List String) : List Row :=
  df.filter (fun r => regions.contains r.region)

/-- The value pandas' `rolling(f'{window}d', min_periods=int(window/3)).sum()`
assigns to row `r` whose group-prefix (the same-region rows up to and
including `r`, in table order) is `pre`: the sum over the prefix rows with
date in `(r.date - window, r.date]` when at least `⌊window / 3⌋` of them
exist, `NaN` (`none`) otherwise.  On the monotonic index pandas requires,
prefix rows automatically satisfy `date ≤ r.date`, so only the lower bound
is tested here (src/main.py lines 53-60). -/
def rollVal (window : ℕ) (pre : List Row) (r : Row) : Option ℚ :=
  let win := pre.filter (fun s => s.region == r.region && decide (r.date < s.date + window))
  if window / 3 ≤ win.length then some ((win.map Row.precip).sum) else none

/-- Walk the table attaching `rollVal` to every row; `seen` is the already
processed prefix of the table.  This is `groupby('region')['precip']
.rolling(...).sum()` followed by the key-preserving inner merge of lines
62-64, which under the data-model uniqueness of `(region, date)` gives each
row exactly its own group's window value, in unchanged table order. -/
def withRollingFrom (window : ℕ) : List Row → List Row → List RolledRow
  | _, [] => []
  | seen, r :: rest =>
    ⟨r, rollVal window (seen ++ [r]) r⟩ :: withRollingFrom window (seen ++ [r]) rest

/-- Lines 53-64: the rolled table. -/
def withRolling (window : ℕ) (df : List Row) : List RolledRow :=
  withRollingFrom window [] df

/-- Line 66 / line 84: `Series.between(lo, hi, inclusive='both')`. -/
def inYearRange (b : ℤ × ℤ) (y : ℤ) : Bool :=
  decide (b.1 ≤ y ∧ y ≤ b.2)

/-- Membership of a rolled row in the `(reg, d)` group of the
baseline-period selection `df.loc[idx].groupby(['region', 'doy'])`
(lines 66-71). -/
def baseFilter (b : ℤ × ℤ) (reg : String) (d : ℕ) (r : RolledRow) : Bool :=
  inYearRange b r.row.year && r.row.region == reg && r.row.doy == d

/-- The `rolling_sum` column of one baseline group. -/
def baseVals (rolled : List RolledRow) (b : ℤ × ℤ) (reg : String) (d : ℕ) :
    List (Option ℚ) :=
  (rolled.filter (baseFilter b reg d)).map RolledRow.rolling_sum

/-- pandas `mean` aggregation: skips `NaN` cells, `NaN` on an empty group. -/
def aggMean (l : List (Option ℚ)) : Option ℚ :=
  let v := l.filterMap id
  if v.length = 0 then none else some (v.sum / (v.length : ℚ))

/-- pandas `std` aggregation, carried as the sample variance (`ddof = 1`):
skips `NaN` cells, `NaN` when fewer than 2 observations remain. -/
def aggVar (l : List (Option ℚ)) : Option ℚ :=
  let v := l.filterMap id
  if v.length < 2 then none
  else
    let m := v.sum / (v.length : ℚ)
    some (((v.map (fun x => (x - m) ^ 2)).sum) / ((v.length : ℚ) - 1))

/-- The `mean` column of `base_period` at key `(reg, d)` (lines 68-76). -/
def baseMean (rolled : List RolledRow) (b : ℤ × ℤ) (reg : String) (d : ℕ) :
    Option ℚ :=
  aggMean (baseVals rolled b reg d)

/-- The `std` column of `base_period` at key `(reg, d)`, in variance form
(lines 68-76). -/
def baseVar (rolled : List RolledRow) (b : ℤ × ℤ) (reg : String) (d : ℕ) :
    Option ℚ :=
  aggVar (baseVals rolled b reg d)

/-- The group keys of `base_period`: the distinct `(region, doy)` pairs
occurring among the baseline-year rows.  (pandas sorts the group keys; the
key order of `base_period` is irrelevant, since the table is only consumed
through a unique-key lookup by the inner merge of lines 78-79.) -/
def baseKeys (rolled : List RolledRow) (b : ℤ × ℤ) : List (String × ℕ) :=
  ((rolled.filter (fun r => inYearRange b r.row.year)).map
    (fun r => (r.row.region, r.row.doy))).dedup

/-- The `base_period` table of lines 68-76. -/
def baseTable (rolled : List RolledRow) (b : ℤ × ℤ) : List BStat :=
  (baseKeys rolled b).map
    (fun k => ⟨k.1, k.2, baseMean rolled b k.1 k.2, baseVar rolled b k.1 k.2⟩)

/-- Key lookup in `base_period`, as performed by the inner merge on
`['region', 'doy']` (lines 78-79). -/
def findStat (tbl : List BStat) (reg : String) (d : ℕ) : Option BStat :=
  tbl.find? (fun st => st.region == reg && st.doy == d)

/-- Lines 78-79: the inner merge with `base_period`.  A left row with no
matching `(region, doy)` key is silently dropped; matching rows gain the
baseline columns, and the left order is preserved (pandas inner merge). -/
def scoreRows (rolled : List RolledRow) (b : ℤ × ℤ) : List ScoredRow :=
  rolled.filterMap (fun r =>
    (findStat (baseTable rolled b) r.row.region r.row.doy).map
      (fun st => ⟨r.row, r.rolling_sum, st.mean, st.bvar⟩))

/-- Lines 81-82: `df['z'] = (df['rolling_sum'] - df['base_mean_rolling_sum'])
/ df['base_std_rolling_sum']` has a finite value exactly when the numerator
cells are non-`NaN` and the standard deviation is non-`NaN` and non-zero;
otherwise the float result is `NaN` or `±inf`.  `base_std = √base_var`, so
`base_std` is zero/`NaN` iff `base_var` is. -/
def zFinite (s : ScoredRow) : Bool :=
  s.rolling_sum.isSome && s.base_mean.isSome &&
    (match s.base_var with
     | none => false
     | some v => v != 0)

/-- Lines 51-84: the whole of `filter_and_roll`, returning the scored table
filtered to the display year range. -/
def filter_and_roll (df : List Row) (regions : List String)
    (years baseline : ℤ × ℤ) (window : ℕ) : List ScoredRow :=
  let df1 := filterRegions df regions
  let rolled := withRolling window df1
  let scored := scoreRows rolled baseline
  scored.filter (fun s => inYearRange years s.row.year)

/-- The number of rows silently discarded by the inner merge of lines
78-79 (rolled rows whose `(region, doy)` key is absent from
`base_period`).  The source computes no such number; this definition only
names the quantity the spec says is "reported". -/
def joinDropped (df : List Row) (regions : List String) (baseline : ℤ × ℤ)
    (window : ℕ) : ℕ :=
  let rolled := withRolling window (filterRegions df regions)
  (rolled.filter (fun r =>
    (findStat (baseTable rolled baseline) r.row.region r.row.doy).isNone)).length

/-- The specification-side window: the rows of `df` in region `reg` whose
date lies in the half-open interval `(d - window, d]`. -/
def specWin (df : List Row) (reg : String) (d window : ℕ) : List Row :=
  df.filter (fun s =>
    s.region == reg && decide (d < s.date + window) && decide (s.date ≤ d))

/-- Dates strictly increase along each region's subsequence of the table;
equivalently the table is per-region chronological with at most one
observation per `(region, date)` — the data-model invariant of the cached
table, and the monotonic-index precondition of pandas' offset rolling. -/
def regSorted (df : List Row) : Prop :=
  df.Pairwise (fun a b => a.region = b.region → a.date < b.date)

/-! ### Heap model for the mutation claim

Python dataframes are heap objects; `df.loc[...]`, `merge`, `groupby`
aggregation and `Series.between` all return fresh objects (pandas
documented behaviour), while `df['z'] = ...` (line 81) writes a column into
an existing object in place.  To state that `filter_and_roll` never mutates
the cached input table, the body is replayed over an explicit object heap:
every statement allocates a fresh cell except line 81, which overwrites the
cell allocated by the merge of lines 78-79. -/

/-- A scored row together with its `z` cell, recorded as the finiteness of
the float value (see `zFinite`). -/
structure ScoredZRow where
  srow : ScoredRow
  zFin : Bool
deriving DecidableEq, Repr

/-- Line 81: append the `z` column to a scored table. -/
def zRows (l : List ScoredRow) : List ScoredZRow :=
  l.map (fun s => ⟨s, zFinite s⟩)

/-- A heap object: a dataframe or series at some pipeline stage. -/
inductive PObj where
  | raw : List Row → PObj
  | rser : List ((String × ℕ) × Option ℚ) → PObj
  | rolled : List RolledRow → PObj
  | stats : List BStat → PObj
  | scored : List ScoredRow → PObj
  | scoredZ : List ScoredZRow → PObj
deriving DecidableEq, Repr

/-- Read a raw table out of a heap cell (the callee's view of its `df`
argument; a dangling or wrongly-typed reference reads as an empty table,
a situation the theorems exclude by hypothesis). -/
def getRaw (h : List PObj) (i : ℕ) : List Row :=
  match h[i]? with
  | some (PObj.raw f) => f
  | _ => []

/-- The body of `filter_and_roll` replayed over the heap `h`, with the
cached input table at reference `dfRef`.  Returns the final heap and the
reference of the returned dataframe.  Allocation/mutation ledger:
line 52 (`.loc`) allocates, line 53-60 (`groupby...rolling...sum`)
allocates the series, line 62 (`merge`) allocates, lines 68-76
(`groupby...agg`) allocate `base_period`, line 78 (`merge`) allocates,
line 81 (`df['z'] = ...`) mutates that last merge result in place, and
line 84 (`.loc`) allocates the returned frame. -/
def filter_and_roll_heap (h : List PObj) (dfRef : ℕ) (regions : List String)
    (years baseline : ℤ × ℤ) (window : ℕ) : List PObj × ℕ :=
  let df0 := getRaw h dfRef
  let f1 := filterRegions df0 regions
  let rolledL := withRolling window f1
  let serL := rolledL.map (fun x => ((x.row.region, x.row.date), x.rolling_sum))
  let statsL := baseTable rolledL baseline
  let scoredL := scoreRows rolledL baseline
  let outL := (zRows scoredL).filter (fun t => inYearRange years t.srow.row.year)
  let h5 := h ++ [PObj.raw f1, PObj.rser serL, PObj.rolled rolledL,
                  PObj.stats statsL, PObj.scored scoredL]
  let h6 := h5.set (h.length + 4) (PObj.scoredZ (zRows scoredL))
  (h6 ++ [PObj.scoredZ outL], h.length + 5)

/-- The heap cell a heap run hands back to its caller. -/
def heapResult (p : List PObj × ℕ) : Option PObj :=
  p.1[p.2]?

/-! ### Concrete tables used by witnesses and counterexamples -/

/-- Region identifiers for concrete tables. -/
def rgA : String := "a"

/-- Second region identifier. -/
def rgB : String := "b"

/-- Day 10, 1 mm, region `rgA`. -/
def exRow1 : Row := ⟨rgA, 10, 1, 10, 1, 2000⟩

/-- Day 11, 2 mm, region `rgA`. -/
def exRow2 : Row := ⟨rgA, 11, 2, 11, 1, 2000⟩

/-- A two-day single-region table. -/
def exDf : List Row := [exRow1, exRow2]

/-- A second-region row on day 10. -/
def exRowB : Row := ⟨rgB, 10, 1, 10, 1, 2000⟩

/-- Two regions, one day each, region `rgA` first in the table. -/
def exDf2 : List Row := [exRow1, exRowB]

/-- A row whose `(region, doy)` key has no baseline group and whose window
is disjoint from the other rows (year 1999, doy 7). -/
def exRow0 : Row := ⟨rgA, 50, 5, 7, 1, 1999⟩

/-- Baseline-year row for the join-drop example (year 2000, doy 5). -/
def exRow5 : Row := ⟨rgA, 100, 1, 5, 1, 2000⟩

/-- Display-year row for the join-drop example (year 2001, doy 5). -/
def exRow6 : Row := ⟨rgA, 465, 2, 5, 1, 2001⟩

/-- Join-drop example, variant without the droppable row. -/
def exDfJoinA : List Row := [exRow5, exRow6]

/-- Join-drop example, variant with the droppable row. -/
def exDfJoinB : List Row := [exRow0, exRow5, exRow6]

/-- A rolled baseline row for the estimator-locality witness. -/
def exRolled1 : RolledRow := ⟨exRow1, some 1⟩

/-- A rolled row outside the baseline years (year 1990). -/
def exRolledOut : RolledRow := ⟨⟨rgA, 400, 3, 35, 2, 1990⟩, some 7⟩

/-- Decidability of the sortedness invariant (used to check it on the
concrete witness tables). -/
instance (df : List Row) : Decidable (regSorted df) := by
  unfold regSorted; infer_instance

/-! ### Helper lemmas -/

/-- Every rolled row comes from some position of the table, and its value
is `rollVal` of the table prefix up to that position. -/
theorem mem_withRollingFrom {W : ℕ} {x : RolledRow} :
    ∀ {l seen : List Row}, x ∈ withRollingFrom W seen l →
      ∃ l1 l2, l = l1 ++ x.row :: l2 ∧
        x.rolling_sum = rollVal W ((seen ++ l1) ++ [x.row]) x.row := by
  intro l
  induction l with
  | nil => intro seen h; simp [withRollingFrom] at h
  | cons r rest ih =>
    intro seen h
    rw [withRollingFrom] at h
    rcases List.mem_cons.mp h with hx | hx
    · refine ⟨[], rest, ?_, ?_⟩
      · rw [hx]; rfl
      · rw [hx]; simp
    · obtain ⟨l1, l2, hl, hv⟩ := ih hx
      refine ⟨r :: l1, l2, by rw [hl]; rfl, ?_⟩
      rw [hv]; congr 1
      simp [List.append_assoc]

/-- The rows of the rolled table are exactly the input rows, in order. -/
theorem rows_withRollingFrom {W : ℕ} :
    ∀ (l seen : List Row), (withRollingFrom W seen l).map (fun x => x.row) = l := by
  intro l
  induction l with
  | nil => intro seen; rfl
  | cons r rest ih => intro seen; simp [withRollingFrom, ih]

/-- On a per-region sorted table, the group-prefix window of the row `r` at
position `|l1|` is exactly the specification window: the same-region rows of
the whole table with date in `(r.date - W, r.date]`. -/
theorem prefixWin_eq_specWin {W : ℕ} {l1 l2 : List Row} {r : Row}
    (hs : regSorted (l1 ++ r :: l2)) :
    (l1 ++ [r]).filter
        (fun s => s.region == r.region && decide (r.date < s.date + W))
      = specWin (l1 ++ r :: l2) r.region r.date W := by
  rw [regSorted, List.pairwise_append] at hs
  obtain ⟨h1, h2, h12⟩ := hs
  have hl1r : ∀ a ∈ l1, a.region = r.region → a.date < r.date :=
    fun a ha hre => h12 a ha r (List.mem_cons_self r l2) hre
  have hrl2 : ∀ b ∈ l2, r.region = b.region → r.date < b.date :=
    (List.pairwise_cons.mp h2).1
  unfold specWin
  rw [List.filter_append, List.filter_append]
  have e1 : l1.filter (fun s => s.region == r.region && decide (r.date < s.date + W))
      = l1.filter (fun s =>
          s.region == r.region && decide (r.date < s.date + W) && decide (s.date ≤ r.date)) := by
    apply List.filter_congr
    intro s hsm
    by_cases hre : s.region = r.region
    · have hd : s.date ≤ r.date := Nat.le_of_lt (hl1r s hsm hre)
      simp [hre, hd]
    · have : (s.region == r.region) = false := beq_eq_false_iff_ne.mpr hre
      simp [this]
  have e2 : (r :: l2).filter (fun s =>
        s.region == r.region && decide (r.date < s.date + W) && decide (s.date ≤ r.date))
      = [r].filter (fun s => s.region == r.region && decide (r.date < s.date + W)) := by
    have hnil : l2.filter (fun s =>
        s.region == r.region && decide (r.date < s.date + W) && decide (s.date ≤ r.date)) = [] := by
      rw [List.filter_eq_nil_iff]
      intro s hsm hps
      simp only [Bool.and_eq_true, beq_iff_eq, decide_eq_true_eq] at hps
      exact absurd hps.2 (Nat.not_le_of_lt (hrl2 s hsm hps.1.1.symm))
    by_cases hdr : r.date < r.date + W
    · simp [List.filter_cons, hdr, hnil]
    · simp [List.filter_cons, hdr, hnil]
  rw [e1, e2]

/-- The value of every rolled row, characterized against the specification
window over the (region-filtered) input table. -/
theorem rolling_spec {W : ℕ} {df1 : List Row} {x : RolledRow}
    (hs : regSorted df1) (hx : x ∈ withRolling W df1) :
    x.rolling_sum =
      if W / 3 ≤ (specWin df1 x.row.region x.row.date W).length
      then some (((specWin df1 x.row.region x.row.date W).map Row.precip).sum)
      else none := by
  obtain ⟨l1, l2, hl, hv⟩ := mem_withRollingFrom hx
  subst hl
  rw [hv, rollVal]
  simp only [List.nil_append]
  rw [prefixWin_eq_specWin hs]

/-- Restricting the table to a region selection containing `reg` does not
change `reg`'s specification windows. -/
theorem specWin_filterRegions {df : List Row} {rs : List String} {reg : String}
    {d W : ℕ} (h : rs.contains reg = true) :
    specWin (filterRegions df rs) reg d W = specWin df reg d W := by
  unfold specWin filterRegions
  rw [List.filter_filter]
  apply List.filter_congr
  intro s _
  by_cases hre : s.region = reg
  · have hmem : reg ∈ rs := by simpa using h
    simp [hre, hmem]
  · have : (s.region == reg) = false := beq_eq_false_iff_ne.mpr hre
    simp [this]

/-- Sortedness survives any row filtering. -/
theorem regSorted_filter {df : List Row} (p : Row → Bool) (hs : regSorted df) :
    regSorted (df.filter p) :=
  List.Pairwise.sublist (List.filter_sublist df) hs

/-- `base_period` lookup: the inner-merge key probe returns exactly the
aggregated statistics of the probed `(region, doy)` group, when that key
occurs among the baseline rows, and nothing otherwise. -/
theorem findStat_baseTable (rolled : List RolledRow) (b : ℤ × ℤ) (reg : String) (d : ℕ) :
    findStat (baseTable rolled b) reg d =
      if (reg, d) ∈ baseKeys rolled b
      then some ⟨reg, d, baseMean rolled b reg d, baseVar rolled b reg d⟩
      else none := by
  unfold findStat baseTable
  generalize baseKeys rolled b = ks
  induction ks with
  | nil => simp
  | cons k t ih =>
    rcases k with ⟨kr, kd⟩
    by_cases hr : kr = reg
    · by_cases hd : kd = d
      · subst hr; subst hd
        simp [List.find?]
      · have hpred : ((⟨kr, kd, baseMean rolled b kr kd, baseVar rolled b kr kd⟩ : BStat).region == reg
            && (⟨kr, kd, baseMean rolled b kr kd, baseVar rolled b kr kd⟩ : BStat).doy == d) = false := by
          simp [hd]
        have hd2 : ¬(d = kd) := fun hc => hd hc.symm
        simp [List.find?_cons, hpred, ih, hd2]
    · have hpred : ((⟨kr, kd, baseMean rolled b kr kd, baseVar rolled b kr kd⟩ : BStat).region == reg
          && (⟨kr, kd, baseMean rolled b kr kd, baseVar rolled b kr kd⟩ : BStat).doy == d) = false := by
        simp [hr]
      have hr2 : ¬(reg = kr) := fun hc => hr hc.symm
      simp [List.find?_cons, hpred, ih, hr2]

/-- Every scored row is a rolled row that found its baseline group, with the
group's statistics attached. -/
theorem mem_scoreRows {rolled : List RolledRow} {b : ℤ × ℤ} {s : ScoredRow}
    (h : s ∈ scoreRows rolled b) :
    ∃ r ∈ rolled, s.row = r.row ∧ s.rolling_sum = r.rolling_sum ∧
      s.base_mean = baseMean rolled b r.row.region r.row.doy ∧
      s.base_var = baseVar rolled b r.row.region r.row.doy := by
  unfold scoreRows at h
  obtain ⟨r, hr, hmap⟩ := List.mem_filterMap.mp h
  rw [findStat_baseTable] at hmap
  by_cases hkey : (r.row.region, r.row.doy) ∈ baseKeys rolled b
  · rw [if_pos hkey] at hmap
    simp only [Option.map_some'] at hmap
    have hs := Option.some.inj hmap
    subst hs
    exact ⟨r, hr, rfl, rfl, rfl, rfl⟩
  · rw [if_neg hkey] at hmap
    exact absurd hmap (by simp)

/-- The mean aggregation reads only the non-`NaN` cells. -/
theorem aggMean_congr {l1 l2 : List (Option ℚ)}
    (h : l1.filterMap id = l2.filterMap id) : aggMean l1 = aggMean l2 := by
  unfold aggMean; rw [h]

/-- The std aggregation reads only the non-`NaN` cells. -/
theorem aggVar_congr {l1 l2 : List (Option ℚ)}
    (h : l1.filterMap id = l2.filterMap id) : aggVar l1 = aggVar l2 := by
  unfold aggVar; rw [h]

/-- Group columns distribute over table concatenation. -/
theorem baseVals_append (pre post : List RolledRow) (b : ℤ × ℤ) (reg : String) (d : ℕ) :
    baseVals (pre ++ post) b reg d = baseVals pre b reg d ++ baseVals post b reg d := by
  unfold baseVals; rw [List.filter_append, List.map_append]

/-- Group columns of a table with one distinguished row. -/
theorem baseVals_append_cons (pre post : List RolledRow) (r : RolledRow)
    (b : ℤ × ℤ) (reg : String) (d : ℕ) :
    baseVals (pre ++ r :: post) b reg d
      = baseVals pre b reg d
        ++ (if baseFilter b reg d r then [r.rolling_sum] else [])
        ++ baseVals post b reg d := by
  unfold baseVals
  rw [List.filter_append, List.filter_cons, List.map_append]
  by_cases h : baseFilter b reg d r = true
  · simp [h]
  · simp [h]

/-- A row whose rolling sum is `NaN` contributes nothing to its group's
mean or std. -/
theorem base_stats_drop_none {pre post : List RolledRow} {r : RolledRow}
    (hnone : r.rolling_sum = none) (b : ℤ × ℤ) (reg : String) (d : ℕ) :
    baseMean (pre ++ r :: post) b reg d = baseMean (pre ++ post) b reg d ∧
      baseVar (pre ++ r :: post) b reg d = baseVar (pre ++ post) b reg d := by
  have hvals : (baseVals (pre ++ r :: post) b reg d).filterMap id
      = (baseVals (pre ++ post) b reg d).filterMap id := by
    rw [baseVals_append_cons, baseVals_append]
    by_cases h : baseFilter b reg d r = true
    · simp [h, hnone, List.filterMap_append]
    · simp [h, List.filterMap_append]
  exact ⟨aggMean_congr hvals, aggVar_congr hvals⟩

/-- A row's window value only reads same-region rows of its prefix. -/
theorem rollVal_filter_region {W : ℕ} {reg : String} {seen : List Row} {x : Row}
    (hx : x.region = reg) :
    rollVal W (seen.filter (fun s => s.region == reg) ++ [x]) x
      = rollVal W (seen ++ [x]) x := by
  unfold rollVal
  have hwin : (seen.filter (fun s => s.region == reg) ++ [x]).filter
        (fun s => s.region == x.region && decide (x.date < s.date + W))
      = (seen ++ [x]).filter
        (fun s => s.region == x.region && decide (x.date < s.date + W)) := by
    rw [List.filter_append, List.filter_append, List.filter_filter]
    congr 1
    apply List.filter_congr
    intro s _
    by_cases h1 : s.region = x.region
    · simp [h1, hx, h1.trans hx]
    · have : (s.region == x.region) = false := beq_eq_false_iff_ne.mpr h1
      simp [this]
  rw [hwin]

/-- Projecting the rolled table onto one region's rows is the same as
rolling that region's subtable alone: rolling is per-region. -/
theorem withRollingFrom_filter_region {W : ℕ} {reg : String} :
    ∀ (l seen : List Row),
      (withRollingFrom W seen l).filter (fun x => x.row.region == reg)
        = withRollingFrom W (seen.filter (fun s => s.region == reg))
            (l.filter (fun s => s.region == reg)) := by
  intro l
  induction l with
  | nil => intro seen; rfl
  | cons r t ih =>
    intro seen
    rw [withRollingFrom, List.filter_cons]
    by_cases hre : r.region = reg
    · have hb : (r.region == reg) = true := by simp [hre]
      have hseen : (seen ++ [r]).filter (fun s => s.region == reg)
          = seen.filter (fun s => s.region == reg) ++ [r] := by
        rw [List.filter_append]; simp [hb]
      rw [List.filter_cons]
      simp only [hb, if_pos]
      rw [ih (seen ++ [r]), hseen, withRollingFrom]
      rw [rollVal_filter_region hre]
    · have hb : (r.region == reg) = false := beq_eq_false_iff_ne.mpr hre
      have hseen : (seen ++ [r]).filter (fun s => s.region == reg)
          = seen.filter (fun s => s.region == reg) := by
        rw [List.filter_append]; simp [hb]
      rw [List.filter_cons]
      simp only [hb, Bool.false_eq_true, if_neg, ite_false]
      rw [ih (seen ++ [r]), hseen]

/-- Region projection through the region-selection filter: the `reg` rows of
the selected table are `reg`'s rows of the full table when `reg` is
selected, and nothing otherwise. -/
theorem filterRegions_filter_region (df : List Row) (rs : List String) (reg : String) :
    (filterRegions df rs).filter (fun s => s.region == reg)
      = if rs.contains reg = true then df.filter (fun s => s.region == reg) else [] := by
  unfold filterRegions
  rw [List.filter_filter]
  by_cases hc : rs.contains reg = true
  · rw [if_pos hc]
    apply List.filter_congr
    intro s _
    by_cases hre : s.region = reg
    · have hmem : reg ∈ rs := by simpa using hc
      simp [hre, hmem]
    · have : (s.region == reg) = false := beq_eq_false_iff_ne.mpr hre
      simp [this]
  · rw [if_neg hc, List.filter_eq_nil_iff]
    intro s _ hp
    simp only [Bool.and_eq_true, beq_iff_eq] at hp
    exact hc (hp.1 ▸ hp.2)

/-- The inner merge of lines 78-79, over an arbitrary statistics table:
its output rows are a subsequence of its input rows. -/
theorem merge_rows_sublist (tbl : List BStat) :
    ∀ l : List RolledRow,
      ((l.filterMap (fun r =>
          (findStat tbl r.row.region r.row.doy).map
            (fun st => (⟨r.row, r.rolling_sum, st.mean, st.bvar⟩ : ScoredRow)))).map
        (fun s => s.row)).Sublist (l.map (fun r => r.row)) := by
  intro l
  induction l with
  | nil => simp
  | cons r t ih =>
    rw [List.filterMap_cons]
    cases hf : findStat tbl r.row.region r.row.doy with
    | none =>
      simp only [Option.map_none']
      exact List.Sublist.cons r.row ih
    | some st =>
      simp only [Option.map_some', List.map_cons]
      exact List.Sublist.cons₂ r.row ih

/-- The inner merge of lines 78-79, over an arbitrary statistics table:
every input row is either kept (key found) or dropped (key missing), so the
output length plus the number of key-missing rows is the input length. -/
theorem merge_length_account (tbl : List BStat) :
    ∀ l : List RolledRow,
      (l.filterMap (fun r =>
          (findStat tbl r.row.region r.row.doy).map
            (fun st => (⟨r.row, r.rolling_sum, st.mean, st.bvar⟩ : ScoredRow)))).length
        + (l.filter (fun r => (findStat tbl r.row.region r.row.doy).isNone)).length
        = l.length := by
  intro l
  induction l with
  | nil => rfl
  | cons r t ih =>
    rw [List.filterMap_cons, List.filter_cons]
    cases hf : findStat tbl r.row.region r.row.doy with
    | none =>
      simp only [Option.map_none', Option.isNone_none, if_pos]
      simp only [List.length_cons, List.length_cons]
      omega
    | some st =>
      simp only [Option.map_some', Option.isNone_some, List.length_cons]
      simp only [Bool.false_eq_true, if_neg, ite_false]
      omega

/-- Rows of the rolled-over-selection table are selected rows. -/
theorem mem_withRolling_contains {W : ℕ} {df : List Row} {rs : List String}
    {x : RolledRow} (hx : x ∈ withRolling W (filterRegions df rs)) :
    rs.contains x.row.region = true := by
  obtain ⟨l1, l2, hl, _⟩ := mem_withRollingFrom hx
  have hrow : x.row ∈ filterRegions df rs := by
    rw [hl]; exact List.mem_append_right l1 (List.mem_cons_self x.row l2)
  exact (List.mem_filter.mp hrow).2

/-- The heap run leaves every pre-existing heap cell unchanged: all its
writes are fresh allocations except the `z`-column write, which hits the
cell freshly allocated by the baseline merge. -/
theorem filter_and_roll_heap_frame {h : List PObj} {dfRef : ℕ}
    (hlt : dfRef < h.length) (regions : List String) (years baseline : ℤ × ℤ)
    (window : ℕ) :
    (filter_and_roll_heap h dfRef regions years baseline window).1[dfRef]?
      = h[dfRef]? := by
  unfold filter_and_roll_heap
  have h5len : (h ++ [PObj.raw (filterRegions (getRaw h dfRef) regions),
      PObj.rser ((withRolling window (filterRegions (getRaw h dfRef) regions)).map
        (fun x => ((x.row.region, x.row.date), x.rolling_sum))),
      PObj.rolled (withRolling window (filterRegions (getRaw h dfRef) regions)),
      PObj.stats (baseTable (withRolling window (filterRegions (getRaw h dfRef) regions)) baseline),
      PObj.scored (scoreRows (withRolling window (filterRegions (getRaw h dfRef) regions)) baseline)]).length
      = h.length + 5 := by
    rw [List.length_append]; rfl
  rw [List.getElem?_append_left (by rw [List.length_set, h5len]; omega)]
  rw [List.getElem?_set_ne (by omega)]
  rw [List.getElem?_append_left hlt]

/-- The heap run returns (a reference to) the frame holding the scored,
`z`-augmented, display-filtered table computed from the cached input. -/
theorem filter_and_roll_heap_result (h : List PObj) (dfRef : ℕ)
    (regions : List String) (years baseline : ℤ × ℤ) (window : ℕ) :
    heapResult (filter_and_roll_heap h dfRef regions years baseline window)
      = some (PObj.scoredZ
          ((zRows (scoreRows (withRolling window (filterRegions (getRaw h dfRef) regions)) baseline)).filter
            (fun t => inYearRange years t.srow.row.year))) := by
  unfold heapResult filter_and_roll_heap
  have h6len : ((h ++ [PObj.raw (filterRegions (getRaw h dfRef) regions),
      PObj.rser ((withRolling window (filterRegions (getRaw h dfRef) regions)).map
        (fun x => ((x.row.region, x.row.date), x.rolling_sum))),
      PObj.rolled (withRolling window (filterRegions (getRaw h dfRef) regions)),
      PObj.stats (baseTable (withRolling window (filterRegions (getRaw h dfRef) regions)) baseline),
      PObj.scored (scoreRows (withRolling window (filterRegions (getRaw h dfRef) regions)) baseline)]).set
        (h.length + 4)
        (PObj.scoredZ (zRows (scoreRows (withRolling window (filterRegions (getRaw h dfRef) regions)) baseline)))).length
      = h.length + 5 := by
    rw [List.length_set, List.length_append]; rfl
  rw [← h6len, List.getElem?_concat_length]

/-! ### Claim theorems -/

/-- C1: for every selected region `r` and every date `d` in `r`'s series,
the `rolling_sum` produced by `filter_and_roll` at `(r, d)` with window `W`
equals the sum of `r`'s precipitation values at dates `d'` with
`d − W < d' ≤ d`, restricted to the observations actually present in the
table (a time-width window including the current date, not a fixed row
count). -/
theorem C1_rolling_sum_matches_trailing_window (df : List Row)
    (regions : List String) (years baseline : ℤ × ℤ) (window : ℕ)
    (hs : regSorted df) (s : ScoredRow)
    (hmem : s ∈ filter_and_roll df regions years baseline window) (v : ℚ)
    (hv : s.rolling_sum = some v) :
    v = ((specWin df s.row.region s.row.date window).map Row.precip).sum := by
  unfold filter_and_roll at hmem
  have hsc : s ∈ scoreRows (withRolling window (filterRegions df regions)) baseline :=
    (List.mem_filter.mp hmem).1
  obtain ⟨r, hr, hrow, hsum, _, _⟩ := mem_scoreRows hsc
  have hs1 : regSorted (filterRegions df regions) :=
    regSorted_filter (fun t => regions.contains t.region) hs
  have hval := rolling_spec hs1 hr
  have hcont : regions.contains r.row.region = true := mem_withRolling_contains hr
  rw [specWin_filterRegions hcont] at hval
  rw [hrow]
  by_cases hc : window / 3 ≤ (specWin df r.row.region r.row.date window).length
  · rw [if_pos hc] at hval
    rw [hval] at hsum
    rw [hsum] at hv
    exact (Option.some.inj hv).symm
  · rw [if_neg hc] at hval
    rw [hval] at hsum
    rw [hsum] at hv
    cases hv

/-- C2: a row's `rolling_sum` is non-`NaN` exactly when at least
`⌊window / 3⌋` observations of its region fall inside its trailing window
(`min_periods=int(window/3)`); and a row whose `rolling_sum` is `NaN`
contributes nothing to the baseline mean/std aggregation, i.e. removing it
leaves every baseline statistic unchanged. -/
theorem C2_min_periods_rule_and_nan_exclusion :
    (∀ (df : List Row) (regions : List String) (window : ℕ), regSorted df →
      ∀ x ∈ withRolling window (filterRegions df regions),
        (x.rolling_sum.isSome = true ↔
          window / 3 ≤ (specWin df x.row.region x.row.date window).length))
    ∧ (∀ (pre post : List RolledRow) (r : RolledRow) (b : ℤ × ℤ)
        (reg : String) (d : ℕ), r.rolling_sum = none →
        baseMean (pre ++ r :: post) b reg d = baseMean (pre ++ post) b reg d ∧
          baseVar (pre ++ r :: post) b reg d = baseVar (pre ++ post) b reg d) := by
  constructor
  · intro df regions window hs x hx
    have hs1 : regSorted (filterRegions df regions) :=
      regSorted_filter (fun t => regions.contains t.region) hs
    have hval := rolling_spec hs1 hx
    rw [specWin_filterRegions (mem_withRolling_contains hx)] at hval
    by_cases hc : window / 3 ≤ (specWin df x.row.region x.row.date window).length
    · rw [if_pos hc] at hval
      rw [hval]
      simp [hc]
    · rw [if_neg hc] at hval
      rw [hval]
      simp [hc]
  · intro pre post r b reg d hnone
    exact base_stats_drop_none hnone b reg d

/-- C6 (amended): early rows are excluded only through the minimum-count
rule: whenever fewer than `⌊window / 3⌋` observations of the row's region
fall in its trailing window — as happens at the very start of a region's
series — the `rolling_sum` is `NaN`.  (The claim's stronger reading, that a
window reaching before the first observation is never summed, is refuted by
`C6_counterexample_partial_window_computed`.) -/
theorem C6_min_count_rule_only (df : List Row) (regions : List String)
    (window : ℕ) (hs : regSorted df) (x : RolledRow)
    (hx : x ∈ withRolling window (filterRegions df regions))
    (hfew : (specWin df x.row.region x.row.date window).length < window / 3) :
    x.rolling_sum = none := by
  have hs1 : regSorted (filterRegions df regions) :=
    regSorted_filter (fun t => regions.contains t.region) hs
  have hval := rolling_spec hs1 hx
  rw [specWin_filterRegions (mem_withRolling_contains hx)] at hval
  rw [if_neg (by omega)] at hval
  exact hval

/-- C7: rolling is computed independently per region: if two input tables
agree on region `reg`'s rows, the rolled rows of region `reg` coincide,
whatever the other regions' data. -/
theorem C7_rolling_region_independent (window : ℕ) (regions : List String)
    (reg : String) (df1 df2 : List Row)
    (h : df1.filter (fun s => s.region == reg)
        = df2.filter (fun s => s.region == reg)) :
    (withRolling window (filterRegions df1 regions)).filter
        (fun x => x.row.region == reg)
      = (withRolling window (filterRegions df2 regions)).filter
        (fun x => x.row.region == reg) := by
  unfold withRolling
  rw [withRollingFrom_filter_region, withRollingFrom_filter_region]
  rw [filterRegions_filter_region, filterRegions_filter_region, h]

/-- C3: the baseline statistics of a pair `(reg, d)` depend only on the
rolled rows of region `reg` with day-of-year `d` and year inside the
baseline range (both bounds inclusive): two rolled tables agreeing on those
rows get identical `base_mean` and `base_std`, so adding or changing data
outside the range changes nothing. -/
theorem C3_baseline_stats_local_to_group (rolled1 rolled2 : List RolledRow)
    (b : ℤ × ℤ) (reg : String) (d : ℕ)
    (h : rolled1.filter (baseFilter b reg d) = rolled2.filter (baseFilter b reg d)) :
    baseMean rolled1 b reg d = baseMean rolled2 b reg d ∧
      baseVar rolled1 b reg d = baseVar rolled2 b reg d := by
  unfold baseMean baseVar baseVals
  rw [h]
  exact ⟨rfl, rfl⟩

/-- C4: a baseline group with fewer than 2 non-`NaN` samples gets an
undefined std (`none`, distinguishable from `some 0`); every output row
whose std is undefined or zero has no finite `z`; and rows are never
dropped for having an undefined `z` — every scored row in the display
range reaches the (totally computed, exception-free) output. -/
theorem C4_undefined_std_and_z_propagation :
    (∀ (rolled : List RolledRow) (b : ℤ × ℤ) (reg : String) (d : ℕ),
      ((baseVals rolled b reg d).filterMap id).length < 2 →
        baseVar rolled b reg d = none)
    ∧ (∀ (df : List Row) (regions : List String) (years baseline : ℤ × ℤ)
        (window : ℕ) (s : ScoredRow),
        s ∈ filter_and_roll df regions years baseline window →
        (s.base_var = none ∨ s.base_var = some 0) → zFinite s = false)
    ∧ (∀ (df : List Row) (regions : List String) (years baseline : ℤ × ℤ)
        (window : ℕ) (s : ScoredRow),
        s ∈ scoreRows (withRolling window (filterRegions df regions)) baseline →
        inYearRange years s.row.year = true →
        s ∈ filter_and_roll df regions years baseline window) := by
  refine ⟨?_, ?_, ?_⟩
  · intro rolled b reg d hlen
    simp [baseVar, aggVar, hlen]
  · intro df regions years baseline window s _ hvar
    rcases hvar with hv | hv <;> simp [zFinite, hv]
  · intro df regions years baseline window s hmem hyear
    unfold filter_and_roll
    exact List.mem_filter.mpr ⟨hmem, hyear⟩

/-- C5 (amended): the baseline merge drops exactly the rolled rows whose
`(region, doy)` key is missing from `base_period` — nothing is zero-filled
and every surviving row has a matching key — but the drop is silent: no
count of dropped rows is computed or returned (see
`C5_counterexample_drop_count_not_reported`). -/
theorem C5_join_drops_unmatched_rows_silently (rolled : List RolledRow) (b : ℤ × ℤ) :
    ((scoreRows rolled b).length
        + (rolled.filter (fun r =>
            (findStat (baseTable rolled b) r.row.region r.row.doy).isNone)).length
      = rolled.length)
    ∧ ∀ s ∈ scoreRows rolled b,
        (findStat (baseTable rolled b) s.row.region s.row.doy).isSome = true := by
  constructor
  · unfold scoreRows
    exact merge_length_account (baseTable rolled b) rolled
  · intro s hs
    unfold scoreRows at hs
    obtain ⟨r, _, hmap⟩ := List.mem_filterMap.mp hs
    cases hfind : findStat (baseTable rolled b) r.row.region r.row.doy with
    | none => rw [hfind] at hmap; exact absurd hmap (by simp)
    | some st =>
      rw [hfind] at hmap
      simp only [Option.map_some'] at hmap
      have hs2 := Option.some.inj hmap
      subst hs2
      show (findStat (baseTable rolled b) r.row.region r.row.doy).isSome = true
      rw [hfind]
      rfl

/-- C8 (amended): the output rows of `filter_and_roll` are a subsequence of
the input table — every filter and both merges preserve the left order —
so dates stay ascending within each region whenever they are ascending in
the input, and regions appear in the order they occur in the input table
(the loader's fixed order), not in the order of the requested region list
(see `C8_counterexample_region_order_not_request_order`). -/
theorem C8_output_preserves_input_order (df : List Row) (regions : List String)
    (years baseline : ℤ × ℤ) (window : ℕ) :
    ((filter_and_roll df regions years baseline window).map (fun s => s.row)).Sublist df
    ∧ (regSorted df →
        ((filter_and_roll df regions years baseline window).map (fun s => s.row)).Pairwise
          (fun a b => a.region = b.region → a.date < b.date)) := by
  have h1 : (filter_and_roll df regions years baseline window).Sublist
      (scoreRows (withRolling window (filterRegions df regions)) baseline) := by
    unfold filter_and_roll
    exact List.filter_sublist _
  have h2 : ((scoreRows (withRolling window (filterRegions df regions)) baseline).map
      (fun s => s.row)).Sublist
      ((withRolling window (filterRegions df regions)).map (fun r => r.row)) := by
    unfold scoreRows
    exact merge_rows_sublist _ _
  have h3 : (withRolling window (filterRegions df regions)).map (fun r => r.row)
      = filterRegions df regions := rows_withRollingFrom _ _
  have h4 : (filterRegions df regions).Sublist df := List.filter_sublist df
  have hsub : ((filter_and_roll df regions years baseline window).map
      (fun s => s.row)).Sublist df := by
    refine List.Sublist.trans (List.Sublist.map (fun s => s.row) h1) ?_
    refine List.Sublist.trans h2 ?_
    rw [h3]
    exact h4
  exact ⟨hsub, fun hs => List.Pairwise.sublist hsub hs⟩

/-- C9 (amended): `filter_and_roll` performs no parameter validation and
raises no error on invalid selections; an empty region set or a reversed
display range simply flows through the pipeline and produces an empty
table. -/
theorem C9_no_validation_invalid_params_compute_empty :
    (∀ (df : List Row) (years baseline : ℤ × ℤ) (window : ℕ),
      filter_and_roll df [] years baseline window = [])
    ∧ (∀ (df : List Row) (regions : List String) (baseline : ℤ × ℤ)
        (window : ℕ) (y1 y2 : ℤ), y2 < y1 →
        filter_and_roll df regions (y1, y2) baseline window = []) := by
  constructor
  · intro df years baseline window
    unfold filter_and_roll
    have h0 : filterRegions df [] = [] := by
      unfold filterRegions
      rw [List.filter_eq_nil_iff]
      intro a _
      simp
    rw [h0]
    rfl
  · intro df regions baseline window y1 y2 hlt
    unfold filter_and_roll
    rw [List.filter_eq_nil_iff]
    intro s _ hp
    unfold inYearRange at hp
    simp only [decide_eq_true_eq] at hp
    omega

/-- C10: `filter_and_roll` never mutates its input table.  In the heap
replay of its body, the cell holding the cached input table is unchanged
after the run (every table-producing pandas call allocates a fresh object;
the one in-place write, the `z` column assignment of line 81, targets the
frame freshly allocated by the merge of line 78), and a repeated invocation
over the same heap reads the same raw input and returns an identical scored
frame. -/
theorem C10_input_table_never_mutated (h : List PObj) (dfRef : ℕ)
    (df : List Row) (regions : List String) (years baseline : ℤ × ℤ)
    (window : ℕ) (hdf : h[dfRef]? = some (PObj.raw df)) :
    ((filter_and_roll_heap h dfRef regions years baseline window).1[dfRef]?
        = some (PObj.raw df))
    ∧ heapResult (filter_and_roll_heap
          (filter_and_roll_heap h dfRef regions years baseline window).1
          dfRef regions years baseline window)
        = heapResult (filter_and_roll_heap h dfRef regions years baseline window) := by
  have hlt : dfRef < h.length := by
    rcases List.getElem?_eq_some_iff.mp hdf with ⟨hl, _⟩
    exact hl
  have hframe := filter_and_roll_heap_frame hlt regions years baseline window (h := h)
  constructor
  · rw [hframe, hdf]
  · rw [filter_and_roll_heap_result, filter_and_roll_heap_result]
    have hraw1 : getRaw h dfRef = df := by unfold getRaw; rw [hdf]
    have hraw2 : getRaw (filter_and_roll_heap h dfRef regions years baseline window).1 dfRef = df := by
      unfold getRaw
      rw [hframe, hdf]
    rw [hraw1, hraw2]

/-! ### Counterexamples -/

/-- C6 counterexample: region `rgA` has observations on days 10 and 11 only;
with window 6 the day-11 trailing window `(5, 11]` reaches before the first
available observation (day 11 − 6 < day 10), yet `filter_and_roll` computes
`rolling_sum = 3` for it (2 observations ≥ `⌊6/3⌋ = 2`), refuting the claim
that a window extending before the start of the series is never summed. -/
theorem C6_counterexample_partial_window_computed :
    ((filter_and_roll exDf [rgA] (2000, 2000) (2000, 2000) 6).map
        (fun s => s.rolling_sum) = [none, some 3])
    ∧ exRow2.date < exRow1.date + 6 := by
  constructor
  · norm_num [filter_and_roll, scoreRows, withRolling, withRollingFrom, rollVal, filterRegions,
      baseTable, baseKeys, baseFilter, baseVals, baseMean, baseVar, aggMean, aggVar, findStat,
      inYearRange, exDf, exRow1, exRow2, rgA, List.filterMap_cons]
  · decide

/-- C5 counterexample: two inputs that differ only in a row which the
baseline merge drops (`exRow0`: no `(region, doy)` key in `base_period`,
window-disjoint from every other row) produce identical outputs while their
dropped-row counts are 1 and 0 — so `filter_and_roll`'s return value cannot
report the number of dropped rows to the caller. -/
theorem C5_counterexample_drop_count_not_reported :
    (filter_and_roll exDfJoinB [rgA] (2001, 2001) (2000, 2000) 1
      = filter_and_roll exDfJoinA [rgA] (2001, 2001) (2000, 2000) 1)
    ∧ joinDropped exDfJoinB [rgA] (2000, 2000) 1 = 1
    ∧ joinDropped exDfJoinA [rgA] (2000, 2000) 1 = 0 := by
  refine ⟨?_, ?_, ?_⟩ <;>
    norm_num [filter_and_roll, joinDropped, scoreRows, withRolling, withRollingFrom, rollVal,
      filterRegions, baseTable, baseKeys, baseFilter, baseVals, baseMean, baseVar, aggMean,
      aggVar, findStat, inYearRange, exDfJoinA, exDfJoinB, exRow0, exRow5, exRow6, rgA,
      List.filterMap_cons]

set_option maxRecDepth 8000 in
/-- C8 counterexample: the input table holds region `rgA`'s row before
region `rgB`'s row; requesting the regions in the order `[rgB, rgA]` still
yields the output in table order `[rgA, rgB]` — the output follows the
input table's region order, not the requested set's insertion order. -/
theorem C8_counterexample_region_order_not_request_order :
    ((filter_and_roll exDf2 [rgB, rgA] (2000, 2000) (2000, 2000) 6).map
        (fun s => s.row.region) = [rgA, rgB])
    ∧ [rgA, rgB] ≠ [rgB, rgA] := by decide

/-- C9 counterexample: invalid selections are not rejected with an error
before computation: on an empty region set, and on a reversed display
range, `filter_and_roll` runs to completion and returns an ordinary
(empty) result table. -/
theorem C9_counterexample_invalid_params_still_compute :
    filter_and_roll exDf [] (2000, 2000) (2000, 2000) 30 = []
    ∧ filter_and_roll exDf [rgA] (2001, 2000) (2000, 2000) 6 = [] := by
  constructor <;>
    norm_num [filter_and_roll, scoreRows, withRolling, withRollingFrom, rollVal, filterRegions,
      baseTable, baseKeys, baseFilter, baseVals, baseMean, baseVar, aggMean, aggVar, findStat,
      inYearRange, exDf, exRow1, exRow2, rgA, List.filterMap_cons]

/-! ### Witnesses -/

/-- Witness for C1 at the concrete table `exDf`: the day-11 rolling sum 3
is the window sum over `(5, 11]`. -/
theorem C1_witness :
    (3 : ℚ) = ((specWin exDf rgA 11 6).map Row.precip).sum :=
  C1_rolling_sum_matches_trailing_window exDf [rgA] (2000, 2000) (2000, 2000) 6
    (by decide) ⟨exRow2, some 3, some 3, none⟩
    (by norm_num [filter_and_roll, scoreRows, withRolling, withRollingFrom, rollVal,
      filterRegions, baseTable, baseKeys, baseFilter, baseVals, baseMean, baseVar, aggMean,
      aggVar, findStat, inYearRange, exDf, exRow1, exRow2, rgA, List.filterMap_cons,
      Option.some_ne_none])
    3 rfl

/-- Witness for C2 at the concrete table `exDf`: the day-11 row is defined
together with its two-observation window, and a `NaN` row leaves the
(empty-group) statistics unchanged. -/
theorem C2_witness :
    ((some (3 : ℚ)).isSome = true ↔ 6 / 3 ≤ (specWin exDf rgA 11 6).length)
    ∧ (baseMean [(⟨exRow1, none⟩ : RolledRow)] (2000, 2000) rgA 10
         = baseMean [] (2000, 2000) rgA 10
       ∧ baseVar [(⟨exRow1, none⟩ : RolledRow)] (2000, 2000) rgA 10
         = baseVar [] (2000, 2000) rgA 10) :=
  ⟨C2_min_periods_rule_and_nan_exclusion.1 exDf [rgA] 6 (by decide) ⟨exRow2, some 3⟩
      (by norm_num [withRolling, withRollingFrom, rollVal, filterRegions, exDf, exRow1,
        exRow2, rgA]),
    C2_min_periods_rule_and_nan_exclusion.2 [] [] ⟨exRow1, none⟩ (2000, 2000) rgA 10 rfl⟩

/-- Witness for C3: appending a row outside the baseline years leaves the
`(rgA, 10)` statistics unchanged. -/
theorem C3_witness :
    baseMean [exRolled1] (2000, 2000) rgA 10
        = baseMean [exRolled1, exRolledOut] (2000, 2000) rgA 10
    ∧ baseVar [exRolled1] (2000, 2000) rgA 10
        = baseVar [exRolled1, exRolledOut] (2000, 2000) rgA 10 :=
  C3_baseline_stats_local_to_group [exRolled1] [exRolled1, exRolledOut]
    (2000, 2000) rgA 10 (by decide)

/-- Witness for C4: a one-sample group has `none` (not `some 0`) std; an
output row whose std cell is `none` has no finite `z`; and a scored row in
the display range reaches the output. -/
theorem C4_witness :
    baseVar [(⟨exRow1, some 1⟩ : RolledRow)] (2000, 2000) rgA 10 = none
    ∧ zFinite ⟨exRow1, none, none, none⟩ = false
    ∧ (⟨exRow2, some 3, some 3, none⟩ : ScoredRow)
        ∈ filter_and_roll exDf [rgA] (2000, 2000) (2000, 2000) 6 :=
  ⟨C4_undefined_std_and_z_propagation.1 [⟨exRow1, some 1⟩] (2000, 2000) rgA 10 (by decide),
    C4_undefined_std_and_z_propagation.2.1 exDf [rgA] (2000, 2000) (2000, 2000) 6
      ⟨exRow1, none, none, none⟩
      (by norm_num [filter_and_roll, scoreRows, withRolling, withRollingFrom, rollVal,
        filterRegions, baseTable, baseKeys, baseFilter, baseVals, baseMean, baseVar, aggMean,
        aggVar, findStat, inYearRange, exDf, exRow1, exRow2, rgA, List.filterMap_cons,
        Option.some_ne_none])
      (Or.inl rfl),
    C4_undefined_std_and_z_propagation.2.2 exDf [rgA] (2000, 2000) (2000, 2000) 6
      ⟨exRow2, some 3, some 3, none⟩
      (by norm_num [scoreRows, withRolling, withRollingFrom, rollVal, filterRegions,
        baseTable, baseKeys, baseFilter, baseVals, baseMean, baseVar, aggMean, aggVar,
        findStat, inYearRange, exDf, exRow1, exRow2, rgA, List.filterMap_cons,
        Option.some_ne_none])
      (by decide)⟩

set_option maxRecDepth 4000 in
/-- Witness for C5 (amended) on a concrete rolled table with one
key-missing row: kept rows plus dropped rows account for all three rows,
and a kept row's key is present in `base_period`. -/
theorem C5_witness :
    ((scoreRows [(⟨exRow0, none⟩ : RolledRow), ⟨exRow5, none⟩, ⟨exRow6, none⟩]
          (2000, 2000)).length
      + ([(⟨exRow0, none⟩ : RolledRow), ⟨exRow5, none⟩, ⟨exRow6, none⟩].filter (fun r =>
          (findStat (baseTable [(⟨exRow0, none⟩ : RolledRow), ⟨exRow5, none⟩, ⟨exRow6, none⟩]
              (2000, 2000)) r.row.region r.row.doy).isNone)).length
      = [(⟨exRow0, none⟩ : RolledRow), ⟨exRow5, none⟩, ⟨exRow6, none⟩].length)
    ∧ (findStat (baseTable [(⟨exRow0, none⟩ : RolledRow), ⟨exRow5, none⟩, ⟨exRow6, none⟩]
        (2000, 2000)) rgA 5).isSome = true :=
  ⟨(C5_join_drops_unmatched_rows_silently
      [⟨exRow0, none⟩, ⟨exRow5, none⟩, ⟨exRow6, none⟩] (2000, 2000)).1,
    (C5_join_drops_unmatched_rows_silently
      [⟨exRow0, none⟩, ⟨exRow5, none⟩, ⟨exRow6, none⟩] (2000, 2000)).2
      ⟨exRow5, none, none, none⟩ (by decide)⟩

/-- Witness for C6 (amended): the day-10 row has only one observation in
its window, fewer than `⌊6/3⌋ = 2`, so its rolling sum is `NaN`. -/
theorem C6_witness :
    (⟨exRow1, none⟩ : RolledRow).rolling_sum = none :=
  C6_min_count_rule_only exDf [rgA] 6 (by decide) ⟨exRow1, none⟩
    (by norm_num [withRolling, withRollingFrom, rollVal, filterRegions, exDf, exRow1,
      exRow2, rgA])
    (by decide)

/-- Witness for C7: appending a `rgB` row to the table leaves `rgA`'s
rolled rows unchanged. -/
theorem C7_witness :
    (withRolling 6 (filterRegions exDf [rgA])).filter (fun x => x.row.region == rgA)
      = (withRolling 6 (filterRegions (exDf ++ [exRowB]) [rgA])).filter
          (fun x => x.row.region == rgA) :=
  C7_rolling_region_independent 6 [rgA] rgA exDf (exDf ++ [exRowB]) (by decide)

/-- Witness for C8 (amended) at the concrete table `exDf`. -/
theorem C8_witness :
    ((filter_and_roll exDf [rgA] (2000, 2000) (2000, 2000) 6).map
        (fun s => s.row)).Sublist exDf
    ∧ ((filter_and_roll exDf [rgA] (2000, 2000) (2000, 2000) 6).map
        (fun s => s.row)).Pairwise (fun a b => a.region = b.region → a.date < b.date) :=
  ⟨(C8_output_preserves_input_order exDf [rgA] (2000, 2000) (2000, 2000) 6).1,
    (C8_output_preserves_input_order exDf [rgA] (2000, 2000) (2000, 2000) 6).2 (by decide)⟩

/-- Witness for C9 (amended): a reversed display range yields an empty
result. -/
theorem C9_witness :
    filter_and_roll exDf [rgA] (2002, 2001) (2000, 2000) 6 = [] :=
  C9_no_validation_invalid_params_compute_empty.2 exDf [rgA] (2000, 2000) 6 2002 2001
    (by decide)

/-- Witness for C10 on a concrete one-cell heap. -/
theorem C10_witness :
    ((filter_and_roll_heap [PObj.raw exDf2] 0 [rgA] (2000, 2000) (2000, 2000) 6).1[0]?
        = some (PObj.raw exDf2))
    ∧ heapResult (filter_and_roll_heap
          (filter_and_roll_heap [PObj.raw exDf2] 0 [rgA] (2000, 2000) (2000, 2000) 6).1
          0 [rgA] (2000, 2000) (2000, 2000) 6)
        = heapResult (filter_and_roll_heap [PObj.raw exDf2] 0 [rgA]
            (2000, 2000) (2000, 2000) 6) :=
  C10_input_table_never_mutated [PObj.raw exDf2] 0 exDf2 [rgA] (2000, 2000) (2000, 2000) 6 rfl
